import Mathlib

/-!
Verification of the flow-assembly and statistics engine of the QUIC
pcap-to-CSV pipeline (`pcap_to_csv.py`).

The Python data structures are shallowly embedded: Python dicts with string
keys become association lists in insertion order, Python ints become `Int`,
Python floats become exact numbers (`ℚ` where the computation is rational,
`ℝ` for square roots and logarithms), and fallible parsing returns `Option`.
-/

set_option maxHeartbeats 1000000

namespace QuicCsv

/-- A value stored in a feature dictionary: a Python int, a Python float
(modelled as an exact real number), a string, or Python `None`. -/
inductive Val where
  | int : Int → Val
  | r : ℝ → Val
  | str : String → Val
  | none : Val

/-- `d[k] = v` on a Python dict modelled as an association list: if the key
is present its value is updated in place, otherwise the pair is appended. -/
def dinsert : List (String × Val) → String → Val → List (String × Val)
  | [], k, v => [(k, v)]
  | (k', v') :: rest, k, v =>
    if k' = k then (k, v) :: rest else (k', v') :: dinsert rest k v

/-- Lookup of a key in a dict (first matching entry). -/
def dlookup : List (String × Val) → String → Option Val
  | [], _ => Option.none
  | (k', v') :: rest, k => if k' = k then some v' else dlookup rest k

/-- `k in d` on a Python dict. -/
def dmem : List (String × Val) → String → Bool
  | [], _ => false
  | (k', _) :: rest, k => if k' = k then true else dmem rest k

/-- `d.get(k, 0)` specialised to integer values: the stored integer if the
key holds one, `0` otherwise. -/
def dgetInt (d : List (String × Val)) (k : String) : Int :=
  match dlookup d k with
  | some (.int n) => n
  | _ => 0

/-- `d.update(e)` on Python dicts. -/
def dupdate (d e : List (String × Val)) : List (String × Val) :=
  e.foldl (fun acc kv => dinsert acc kv.1 kv.2) d

@[simp] theorem dlookup_nil (k : String) : dlookup [] k = Option.none := rfl

theorem dlookup_dinsert (d : List (String × Val)) (k k' : String) (v : Val) :
    dlookup (dinsert d k v) k' = if k' = k then some v else dlookup d k' := by
  induction d with
  | nil =>
    rcases eq_or_ne k' k with h | h
    · subst h; simp [dinsert, dlookup]
    · simp [dinsert, dlookup, if_neg h, if_neg (Ne.symm h)]
  | cons kv rest ih =>
    obtain ⟨k0, v0⟩ := kv
    rcases eq_or_ne k0 k with h0 | h0
    · subst h0
      rcases eq_or_ne k' k0 with h | h
      · subst h; simp [dinsert, dlookup]
      · simp [dinsert, dlookup, if_neg h, if_neg (Ne.symm h)]
    · rcases eq_or_ne k0 k' with h1 | h1
      · subst h1
        simp [dinsert, dlookup, if_neg h0, Ne.symm h0]
      · simp [dinsert, dlookup, if_neg h0, if_neg h1, ih]

theorem dlookup_dinsert_ne (d : List (String × Val)) (k k' : String) (v : Val)
    (h : k' ≠ k) : dlookup (dinsert d k v) k' = dlookup d k' := by
  rw [dlookup_dinsert, if_neg h]

theorem dlookup_dinsert_self (d : List (String × Val)) (k : String) (v : Val) :
    dlookup (dinsert d k v) k = some v := by
  rw [dlookup_dinsert, if_pos rfl]

theorem dgetInt_dinsert_ne (d : List (String × Val)) (k k' : String) (v : Val)
    (h : k' ≠ k) : dgetInt (dinsert d k v) k' = dgetInt d k' := by
  unfold dgetInt
  rw [dlookup_dinsert_ne d k k' v h]

theorem dmem_eq_isSome (d : List (String × Val)) (k : String) :
    dmem d k = (dlookup d k).isSome := by
  induction d with
  | nil => rfl
  | cons kv rest ih =>
    obtain ⟨k0, v0⟩ := kv
    by_cases h : k0 = k <;> simp [dmem, dlookup, h, ih]

theorem dlookup_ite (c : Prop) [Decidable c] (a b : List (String × Val)) (k : String) :
    dlookup (if c then a else b) k = if c then dlookup a k else dlookup b k :=
  apply_ite (fun d => dlookup d k) c a b

theorem dlookup_dupdate_of_none (d e : List (String × Val)) (k : String)
    (h : dlookup e k = Option.none) : dlookup (dupdate d e) k = dlookup d k := by
  induction e generalizing d with
  | nil => rfl
  | cons kv rest ih =>
    obtain ⟨k0, v0⟩ := kv
    simp only [dlookup] at h
    rcases eq_or_ne k0 k with h0 | h0
    · simp [if_pos h0] at h
    · rw [if_neg h0] at h
      show dlookup (dupdate (dinsert d k0 v0) rest) k = _
      rw [ih (dinsert d k0 v0) h, dlookup_dinsert_ne _ _ _ _ (Ne.symm h0)]

/-! ### Python string primitives, modelled over `List Char` -/

/-- The whitespace characters stripped by Python `str.strip()`. -/
def isPySpace (c : Char) : Bool :=
  c = ' ' || c = '\t' || c = '\n' || c = '\r' || c = '\x0b' || c = '\x0c'

/-- Drop the trailing characters satisfying `p`. -/
def dropTrailing (p : Char → Bool) (cs : List Char) : List Char :=
  (cs.reverse.dropWhile p).reverse

/-- Python `str.strip()`. -/
def pyStrip (cs : List Char) : List Char :=
  dropTrailing isPySpace (cs.dropWhile isPySpace)

/-- Python `str.strip(<double quote>)`. -/
def stripQuotes (cs : List Char) : List Char :=
  dropTrailing (fun c => c = '"') (cs.dropWhile (fun c => c = '"'))

/-- Python `str.split(sep)` for a one-character separator. -/
def pySplit (sep : Char) : List Char → List (List Char)
  | [] => [[]]
  | c :: rest =>
    if c = sep then [] :: pySplit sep rest
    else
      match pySplit sep rest with
      | f :: fs => (c :: f) :: fs
      | [] => [[c]]

/-- Numeric value of a digit string (no validity check). -/
def digitsToNat (cs : List Char) : Nat :=
  cs.foldl (fun a c => a * 10 + (c.toNat - '0'.toNat)) 0

/-- Decimal digits of Python `int(s)`: nonempty all-digit string. -/
def pyIntDigits (cs : List Char) : Option Int :=
  if cs ≠ [] ∧ cs.all Char.isDigit then some (digitsToNat cs : Int) else Option.none

/-- Python `int(s)` on an already stripped string: optional sign, then
decimal digits; any other shape raises `ValueError`, i.e. returns `none`. -/
def pyInt : List Char → Option Int
  | '+' :: rest => pyIntDigits rest
  | '-' :: rest => (pyIntDigits rest).map (fun n => -n)
  | cs => pyIntDigits cs

/-- Split a character list at the first character satisfying `p`; the second
component is `none` when no such character occurs. -/
def breakAtChar (p : Char → Bool) : List Char → List Char × Option (List Char)
  | [] => ([], Option.none)
  | c :: rest =>
    if p c then ([], some rest)
    else
      let r := breakAtChar p rest
      (c :: r.1, r.2)

/-- Unsigned part of Python `float(s)`: `digits[.digits][(e|E)[sign]digits]`
with at least one mantissa digit.  The value is exact (`ℚ`). -/
def pyFloatCore (cs : List Char) : Option ℚ :=
  let mant := breakAtChar (fun c => c = 'e' || c = 'E') cs
  let ipfp := breakAtChar (fun c => c = '.') mant.1
  let ip := ipfp.1
  let fp := (ipfp.2).getD []
  if ip.all Char.isDigit ∧ fp.all Char.isDigit ∧ (ip ≠ [] ∨ fp ≠ []) then
    let base : ℚ := (digitsToNat ip : ℚ) + (digitsToNat fp : ℚ) / (10 : ℚ) ^ fp.length
    match mant.2 with
    | Option.none => some base
    | some es =>
      let sgnDs : Int × List Char :=
        match es with
        | '+' :: rest => (1, rest)
        | '-' :: rest => (-1, rest)
        | _ => (1, es)
      if sgnDs.2 ≠ [] ∧ sgnDs.2.all Char.isDigit then
        some (base * (10 : ℚ) ^ (sgnDs.1 * (digitsToNat sgnDs.2 : Int)))
      else Option.none
  else Option.none

/-- Python `float(s)` on an already stripped string. -/
def pyFloat : List Char → Option ℚ
  | '+' :: rest => pyFloatCore rest
  | '-' :: rest => (pyFloatCore rest).map (fun q => -q)
  | cs => pyFloatCore cs

/-- Python string `<` (lexicographic comparison by code point). -/
def strLtList : List Char → List Char → Bool
  | [], [] => false
  | [], _ :: _ => true
  | _ :: _, [] => false
  | a :: as, b :: bs =>
    if a.toNat < b.toNat then true
    else if b.toNat < a.toNat then false
    else strLtList as bs

/-- Python `min(a, b)` on strings: returns `b` exactly when `b < a`. -/
def pyMinStr (a b : String) : String :=
  if strLtList b.data a.data then b else a

/-- Python `s.lower()` (per-character lowering). -/
def pyLower (s : String) : String :=
  ⟨s.data.map Char.toLower⟩

/-- Python `needle in hay` over character lists. -/
def isSubAux (needle : List Char) : List Char → Bool
  | [] => needle.isEmpty
  | c :: rest => needle.isPrefixOf (c :: rest) || isSubAux needle rest

/-- Python substring containment `needle in hay` on strings. -/
def containsSub (needle hay : String) : Bool :=
  isSubAux needle.data hay.data

theorem strLtList_asymm (a b : List Char) (h : strLtList a b = true) :
    strLtList b a = false := by
  induction a generalizing b with
  | nil => cases b with
    | nil => simp [strLtList] at h
    | cons y ys => simp [strLtList]
  | cons x xs ih =>
    cases b with
    | nil => simp [strLtList] at h
    | cons y ys =>
      by_cases h1 : x.toNat < y.toNat
      · have h2 : ¬ y.toNat < x.toNat := by omega
        simp [strLtList, h1, h2]
      · by_cases h2 : y.toNat < x.toNat
        · simp [strLtList, h1, h2] at h
        · simp only [strLtList, if_neg h1, if_neg h2] at h
          simp only [strLtList, if_neg h1, if_neg h2]
          exact ih ys h

theorem strLtList_eq_of_not (a b : List Char) (hab : strLtList a b = false)
    (hba : strLtList b a = false) : a = b := by
  induction a generalizing b with
  | nil => cases b with
    | nil => rfl
    | cons y ys => simp [strLtList] at hab
  | cons x xs ih =>
    cases b with
    | nil => simp [strLtList] at hba
    | cons y ys =>
      by_cases h1 : x.toNat < y.toNat
      · simp [strLtList, h1] at hab
      · by_cases h2 : y.toNat < x.toNat
        · simp [strLtList, h2] at hba
        · have hx : x = y := by
            apply Char.eq_of_val_eq
            apply UInt32.eq_of_val_eq
            exact Fin.ext (Nat.le_antisymm (Nat.le_of_not_lt h2) (Nat.le_of_not_lt h1))
          subst hx
          simp only [strLtList, if_neg h1, if_neg h2] at hab hba
          rw [ih ys hab hba]

theorem pyMinStr_comm (a b : String) : pyMinStr a b = pyMinStr b a := by
  unfold pyMinStr
  by_cases h1 : strLtList b.data a.data = true
  · rw [if_pos h1, if_neg (by simp [strLtList_asymm _ _ h1])]
  · by_cases h2 : strLtList a.data b.data = true
    · rw [if_neg h1, if_pos h2]
    · rw [if_neg h1, if_neg h2]
      have : a.data = b.data :=
        strLtList_eq_of_not _ _ (Bool.eq_false_iff.mpr h2) (Bool.eq_false_iff.mpr h1)
      cases a; cases b
      exact congrArg String.mk this

/-! ### Packet records and flow assembly (`extract_quic_flows_tshark`) -/

/-- One parsed packet: the `packet_info` dict built for each tshark line. -/
structure Packet where
  src_ip : String
  dst_ip : String
  src_port : String
  dst_port : String
  size : Int
  timestamp : ℚ
  packet_type : String
  is_long_header : Bool
  is_short_header : Bool
  quic_length : Int
  quic_version : String
  dcid : String
  scid : String
  direction : Option String
  deriving DecidableEq

/-- Flow ID: the lexicographically smaller of the two directional strings. -/
def flowId (src_ip dst_ip src_port dst_port : String) : String :=
  let flow_id_1 := src_ip ++ ":" ++ src_port ++ "->" ++ dst_ip ++ ":" ++ dst_port
  let flow_id_2 := dst_ip ++ ":" ++ dst_port ++ "->" ++ src_ip ++ ":" ++ src_port
  pyMinStr flow_id_1 flow_id_2

/-- The stripped, unquoted fields of one tshark output line. -/
def lineFields (line : String) : List (List Char) :=
  (pySplit '|' line.data).map (fun f => pyStrip (stripQuotes f))

/-- Field `i` of a line (`fields[i]`, empty when absent). -/
def fieldAt (line : String) (i : Nat) : List Char :=
  (lineFields line).getD i []

/-- `src_ip = ip_src if ip_src else ipv6_src` (IPv4 priority). -/
def srcIpOf (line : String) : List Char :=
  if fieldAt line 0 ≠ [] then fieldAt line 0 else fieldAt line 2

/-- `dst_ip = ip_dst if ip_dst else ipv6_dst` (IPv4 priority). -/
def dstIpOf (line : String) : List Char :=
  if fieldAt line 1 ≠ [] then fieldAt line 1 else fieldAt line 3

/-- `int(frame_len) if frame_len else 0`, `none` on `ValueError`. -/
def sizeParsed (line : String) : Option Int :=
  if fieldAt line 6 ≠ [] then pyInt (fieldAt line 6) else some 0

/-- `float(time_epoch) if time_epoch else 0.0`, `none` on `ValueError`. -/
def tsParsed (line : String) : Option ℚ :=
  if fieldAt line 7 ≠ [] then pyFloat (fieldAt line 7) else some 0

/-- `int(quic_length) if quic_length else 0`, `none` on `ValueError`. -/
def qlParsed (line : String) : Option Int :=
  if fieldAt line 9 ≠ [] then pyInt (fieldAt line 9) else some 0

/-- Per-line parsing of `extract_quic_flows_tshark`: returns `none` exactly
when the line is skipped (`continue`). -/
def parseLine (line : String) : Option Packet :=
  if pyStrip line.data = [] then Option.none
  else if (lineFields line).length < 8 then Option.none
  else if srcIpOf line = [] ∨ dstIpOf line = [] ∨ fieldAt line 4 = [] ∨ fieldAt line 5 = []
    then Option.none
  else
    match sizeParsed line, tsParsed line, qlParsed line with
    | some sz, some ts, some ql =>
      some {
        src_ip := ⟨srcIpOf line⟩
        dst_ip := ⟨dstIpOf line⟩
        src_port := ⟨fieldAt line 4⟩
        dst_port := ⟨fieldAt line 5⟩
        size := sz
        timestamp := ts
        packet_type := if fieldAt line 8 ≠ [] then pyLower ⟨fieldAt line 8⟩ else ""
        is_long_header := !(List.isEmpty (fieldAt line 8))
        is_short_header := List.isEmpty (fieldAt line 8)
        quic_length := ql
        quic_version := ⟨fieldAt line 10⟩
        dcid := ⟨fieldAt line 11⟩
        scid := ⟨fieldAt line 12⟩
        direction := Option.none }
    | _, _, _ => Option.none

/-- Per-flow state: the `flows[flow_id]` dict of `extract_quic_flows_tshark`. -/
structure FlowData where
  packets : List Packet
  server_ip : Option String
  server_port : Option String
  client_ip : Option String
  client_port : Option String
  deriving DecidableEq

/-- Append one packet to its flow, creating the flow entry (with `None`
roles) on first sight; the packet's `direction` is initialised to `None`. -/
def addToFlows : List (String × FlowData) → String → Packet → List (String × FlowData)
  | [], fid, p =>
    [(fid, { packets := [{ p with direction := Option.none }],
             server_ip := Option.none, server_port := Option.none,
             client_ip := Option.none, client_port := Option.none })]
  | (k, fd) :: rest, fid, p =>
    if k = fid then
      (k, { fd with packets := fd.packets ++ [{ p with direction := Option.none }] }) :: rest
    else
      (k, fd) :: addToFlows rest fid p

/-- First pass of the assembler: group packets by canonical flow key. -/
def assembleRaw (ps : List Packet) : List (String × FlowData) :=
  ps.foldl (fun flows p => addToFlows flows (flowId p.src_ip p.dst_ip p.src_port p.dst_port) p) []

/-- Second pass: fix client/server roles from the first packet and assign
every packet's direction. -/
def setDirections (fd : FlowData) : FlowData :=
  match fd.packets with
  | [] => fd
  | first :: _ =>
    { fd with
      client_ip := some first.src_ip
      client_port := some first.src_port
      server_ip := some first.dst_ip
      server_port := some first.dst_port
      packets := fd.packets.map (fun p =>
        { p with direction :=
            if p.src_ip = first.src_ip ∧ p.src_port = first.src_port then some "outgoing"
            else some "incoming" }) }

/-- The flow map produced by `extract_quic_flows_tshark` from the parsed
packet stream. -/
def extract_quic_flows (ps : List Packet) : List (String × FlowData) :=
  (assembleRaw ps).map (fun kfd => (kfd.1, setDirections kfd.2))

/-! ### Numeric helpers for the statistics engine -/

/-- `np.mean` of a rational list (exact). -/
def meanQ (l : List ℚ) : ℚ := l.sum / l.length

/-- `np.var` (population variance) of a rational list (exact). -/
def varQ (l : List ℚ) : ℚ := ((l.map (fun x => (x - meanQ l) ^ 2)).sum) / l.length

/-- `np.std` (population standard deviation). -/
noncomputable def stdQ (l : List ℚ) : ℝ := Real.sqrt (varQ l)

/-- `min` of a list (the empty case never occurs at use sites). -/
def listMinQ : List ℚ → ℚ
  | [] => 0
  | x :: xs => xs.foldl min x

/-- `max` of a list (the empty case never occurs at use sites). -/
def listMaxQ : List ℚ → ℚ
  | [] => 0
  | x :: xs => xs.foldl max x

/-- `np.min` of an integer list (the empty case never occurs at use sites). -/
def listMinI : List Int → Int
  | [] => 0
  | x :: xs => xs.foldl min x

/-- `np.max` of an integer list (the empty case never occurs at use sites). -/
def listMaxI : List Int → Int
  | [] => 0
  | x :: xs => xs.foldl max x

/-- Insert into a sorted list (ascending). -/
def insortQ (x : ℚ) : List ℚ → List ℚ
  | [] => [x]
  | y :: ys => if x ≤ y then x :: y :: ys else y :: insortQ x ys

/-- Python `sorted` for rationals (ascending). -/
def sortQ (l : List ℚ) : List ℚ := l.foldr insortQ []

/-- Successive differences `[t[i+1] - t[i] for i in range(len(t)-1)]`. -/
def diffs : List ℚ → List ℚ
  | a :: b :: rest => (b - a) :: diffs (b :: rest)
  | _ => []

/-- `calculate_entropy`: Shannon entropy (base 2) of the multiset of values.
`List.dedup` plays the role of the keys of `collections.Counter`. -/
noncomputable def calculate_entropy {α : Type} [DecidableEq α] (values : List α) : ℝ :=
  if values = [] then 0
  else
    -(((values.dedup).map (fun v =>
        let probability : ℝ := (values.count v : ℝ) / (values.length : ℝ)
        if 0 < probability then probability * Real.logb 2 probability else 0)).sum)

/-! ### The statistics engine (`calculate_comprehensive_statistics`) -/

/-- `'initial' in ptype or ptype == '0'` on the lowercased packet type. -/
def indInitial (p : Packet) : Bool :=
  containsSub "initial" (pyLower p.packet_type) || pyLower p.packet_type == "0"

/-- `'handshake' in ptype or ptype == '2'`. -/
def indHandshake (p : Packet) : Bool :=
  containsSub "handshake" (pyLower p.packet_type) || pyLower p.packet_type == "2"

/-- `'0-rtt' in ptype or 'zerortt' in ptype or ptype == '1'`. -/
def indZerortt (p : Packet) : Bool :=
  containsSub "0-rtt" (pyLower p.packet_type) || containsSub "zerortt" (pyLower p.packet_type) ||
    pyLower p.packet_type == "1"

/-- `'retry' in ptype or ptype == '3'`. -/
def indRetry (p : Packet) : Bool :=
  containsSub "retry" (pyLower p.packet_type) || pyLower p.packet_type == "3"

/-- Protocol-state classes assigned by the classification loop. -/
inductive PClass where
  | initial | handshake | zerortt | retry | onertt | unclassified
  deriving DecidableEq

/-- The branch taken by the classification loop for one packet: the
`if/elif` chain of `calculate_comprehensive_statistics`, in source order. -/
def classify (p : Packet) : PClass :=
  if indInitial p then .initial
  else if indHandshake p then .handshake
  else if indZerortt p then .zerortt
  else if indRetry p then .retry
  else if p.is_short_header then .onertt
  else .unclassified

/-- The stats key incremented for each class (`none`: no bucket). -/
def clsKey : PClass → Option String
  | .initial => some "initial_packets"
  | .handshake => some "handshake_packets"
  | .zerortt => some "zerortt_packets"
  | .retry => some "retry_packets"
  | .onertt => some "onertt_packets"
  | .unclassified => Option.none

/-- `stats[key] = stats.get(key, 0) + 1`. -/
def incKey (d : List (String × Val)) (k : String) : List (String × Val) :=
  dinsert d k (.int (dgetInt d k + 1))

/-- Loop body of the classification loop. -/
def classStep (d : List (String × Val)) (p : Packet) : List (String × Val) :=
  match clsKey (classify p) with
  | some k => incKey d k
  | Option.none => d

/-- `for pkt in all_packets: ...` classification loop. -/
def classLoop (d : List (String × Val)) (ps : List Packet) : List (String × Val) :=
  ps.foldl classStep d

/-- `if key not in stats: stats[key] = 0`. -/
def fill0 (d : List (String × Val)) (k : String) : List (String × Val) :=
  if dmem d k then d else dinsert d k (.int 0)

/-- Zero-fill of the five protocol-state counters, in source order. -/
def zeroFill (d : List (String × Val)) : List (String × Val) :=
  fill0 (fill0 (fill0 (fill0 (fill0 d "initial_packets") "handshake_packets")
    "zerortt_packets") "onertt_packets") "retry_packets"

/-- The five protocol-state ratios (`if total > 0: ... else: ...`),
reading each counter from the dict as the source does. -/
noncomputable def ratioStage (d : List (String × Val)) (total : Nat) : List (String × Val) :=
  if 0 < total then
    let r1 := dinsert d "initial_ratio" (.r ((dgetInt d "initial_packets" : ℝ) / (total : ℝ)))
    let r2 := dinsert r1 "handshake_ratio" (.r ((dgetInt r1 "handshake_packets" : ℝ) / (total : ℝ)))
    let r3 := dinsert r2 "zerortt_ratio" (.r ((dgetInt r2 "zerortt_packets" : ℝ) / (total : ℝ)))
    let r4 := dinsert r3 "onertt_ratio" (.r ((dgetInt r3 "onertt_packets" : ℝ) / (total : ℝ)))
    dinsert r4 "retry_ratio" (.r ((dgetInt r4 "retry_packets" : ℝ) / (total : ℝ)))
  else
    dinsert (dinsert (dinsert (dinsert (dinsert d "initial_ratio" (.int 0))
      "handshake_ratio" (.int 0)) "zerortt_ratio" (.int 0)) "onertt_ratio" (.int 0))
      "retry_ratio" (.int 0)

/-- `calc_size_stats(pkts, prefix)`: size distribution over sizes > 0. -/
noncomputable def calc_size_stats (stats : List (String × Val)) (pkts : List Packet)
    (pfx : String) : List (String × Val) :=
  let sizes : List Int := (pkts.map (fun p => p.size)).filter (fun s => 0 < s)
  if sizes = [] then
    dinsert (dinsert (dinsert (dinsert (dinsert (dinsert stats
      (pfx ++ "_mean") (.int 0)) (pfx ++ "_min") (.int 0)) (pfx ++ "_max") (.int 0))
      (pfx ++ "_std") (.int 0)) (pfx ++ "_var") (.int 0)) (pfx ++ "_cv") (.int 0)
  else
    let sizesQ : List ℚ := sizes.map (fun s => (s : ℚ))
    let d1 := dinsert stats (pfx ++ "_mean") (.r (meanQ sizesQ))
    let d2 := dinsert d1 (pfx ++ "_min") (.int (listMinI sizes))
    let d3 := dinsert d2 (pfx ++ "_max") (.int (listMaxI sizes))
    let d4 := dinsert d3 (pfx ++ "_std") (.r (stdQ sizesQ))
    let d5 := dinsert d4 (pfx ++ "_var") (.r ((varQ sizesQ : ℚ) : ℝ))
    dinsert d5 (pfx ++ "_cv")
      (if 0 < meanQ sizesQ then .r (stdQ sizesQ / ((meanQ sizesQ : ℚ) : ℝ)) else .int 0)

/-- `calc_iat_stats(pkts, prefix)`: inter-arrival-time distribution over
sorted positive timestamps. -/
noncomputable def calc_iat_stats (stats : List (String × Val)) (pkts : List Packet)
    (pfx : String) : List (String × Val) :=
  let timestamps := sortQ ((pkts.map (fun p => p.timestamp)).filter (fun t => 0 < t))
  if timestamps.length < 2 then
    dinsert (dinsert (dinsert (dinsert (dinsert stats
      (pfx ++ "_mean") (.int 0)) (pfx ++ "_min") (.int 0)) (pfx ++ "_max") (.int 0))
      (pfx ++ "_std") (.int 0)) (pfx ++ "_var") (.int 0)
  else
    let iats := diffs timestamps
    let d1 := dinsert stats (pfx ++ "_mean") (.r ((meanQ iats : ℚ) : ℝ))
    let d2 := dinsert d1 (pfx ++ "_min") (.r ((listMinQ iats : ℚ) : ℝ))
    let d3 := dinsert d2 (pfx ++ "_max") (.r ((listMaxQ iats : ℚ) : ℝ))
    let d4 := dinsert d3 (pfx ++ "_std") (.r (stdQ iats))
    dinsert d4 (pfx ++ "_var") (.r ((varQ iats : ℚ) : ℝ))

/-- `calculate_comprehensive_statistics(packets)`: the full feature vector,
as a dict in insertion order.  Returns the empty dict for an empty slice. -/
noncomputable def calculate_comprehensive_statistics (packets : List Packet) :
    List (String × Val) :=
  if packets = [] then []
  else
    let all_packets := packets
    let outgoing_packets := packets.filter (fun p => p.direction == some "outgoing")
    let incoming_packets := packets.filter (fun p => p.direction == some "incoming")
    let s := dinsert [] "total_packets" (.int all_packets.length)
    let s := dinsert s "outgoing_packets" (.int outgoing_packets.length)
    let s := dinsert s "incoming_packets" (.int incoming_packets.length)
    let s := dinsert s "total_bytes" (.int ((all_packets.map (fun p => p.size)).sum))
    let s := dinsert s "outgoing_bytes" (.int ((outgoing_packets.map (fun p => p.size)).sum))
    let s := dinsert s "incoming_bytes" (.int ((incoming_packets.map (fun p => p.size)).sum))
    let s := calc_size_stats s all_packets "packet_size"
    let s := calc_size_stats s outgoing_packets "packet_size_out"
    let s := calc_size_stats s incoming_packets "packet_size_in"
    let s := calc_iat_stats s all_packets "iat"
    let s := calc_iat_stats s outgoing_packets "iat_out"
    let s := calc_iat_stats s incoming_packets "iat_in"
    let short_header_packets := all_packets.filter (fun p => p.is_short_header)
    let long_header_packets := all_packets.filter (fun p => p.is_long_header)
    let s := dinsert s "short_header_count" (.int short_header_packets.length)
    let s := dinsert s "long_header_count" (.int long_header_packets.length)
    let s := dinsert s "short_header_ratio"
      (if all_packets ≠ [] then
        .r ((short_header_packets.length : ℝ) / (all_packets.length : ℝ)) else .int 0)
    let s := dinsert s "long_header_ratio"
      (if all_packets ≠ [] then
        .r ((long_header_packets.length : ℝ) / (all_packets.length : ℝ)) else .int 0)
    let s := dinsert s "spin_bit_count" (.int 0)
    let s := dinsert s "spin_bit_ratio" (.r 0)
    let s := dinsert s "no_spin_bit_ratio" (.r 1)
    let s := classLoop s all_packets
    let s := zeroFill s
    let s := ratioStage s all_packets.length
    let s := dinsert s "entropy_direction"
      (.r (calculate_entropy (all_packets.map (fun p => p.direction))))
    let s := dinsert s "entropy_packet_size"
      (.r (calculate_entropy (all_packets.map (fun p => Int.fdiv p.size 10))))
    let timestamps := (all_packets.map (fun p => p.timestamp)).filter (fun t => 0 < t)
    if 2 ≤ timestamps.length then
      dinsert s "duration" (.r ((listMaxQ timestamps - listMinQ timestamps : ℚ) : ℝ))
    else
      dinsert s "duration" (.int 0)

/-! ### Per-flow output records (`analyze_pcap_file`) -/

/-- A Python value that is either a string or `None` (flow roles). -/
def optStr : Option String → Val
  | some s => .str s
  | Option.none => .none

/-- Metadata of a full-flow record, in source insertion order. -/
def fullMeta (fileName fid : String) (fd : FlowData) : List (String × Val) :=
  dinsert (dinsert (dinsert (dinsert (dinsert (dinsert []
    "file" (.str fileName)) "flow_id" (.str fid))
    "client_ip" (optStr fd.client_ip)) "client_port" (optStr fd.client_port))
    "server_ip" (optStr fd.server_ip)) "server_port" (optStr fd.server_port)

/-- `get_safe_metadata`: metadata of a windowed record. -/
def windowMeta (fileName fid : String) (w : Nat) (fd : FlowData) : List (String × Val) :=
  dinsert (dinsert (dinsert (dinsert (dinsert (dinsert (dinsert []
    "file" (.str fileName)) "flow_id" (.str fid)) "window_size" (.int w))
    "client_ip" (optStr fd.client_ip)) "client_port" (optStr fd.client_port))
    "server_ip" (optStr fd.server_ip)) "server_port" (optStr fd.server_port)

/-- One row of the full-flow dataset: metadata updated with the features of
the whole packet sequence. -/
noncomputable def fullRecord (fileName fid : String) (fd : FlowData) : List (String × Val) :=
  dupdate (fullMeta fileName fid fd) (calculate_comprehensive_statistics fd.packets)

/-- One row of the `w`-window dataset: metadata updated with the features of
the first `w` packets (`packets[:window]`). -/
noncomputable def windowRecord (fileName fid : String) (w : Nat) (fd : FlowData) :
    List (String × Val) :=
  dupdate (windowMeta fileName fid w fd) (calculate_comprehensive_statistics (fd.packets.take w))

/-- The full-flow dataset: one record per flow, unconditionally. -/
noncomputable def fullResults (fileName : String) (flows : List (String × FlowData)) :
    List (List (String × Val)) :=
  flows.map (fun kfd => fullRecord fileName kfd.1 kfd.2)

/-- The `w`-window dataset: flows with fewer than `w` packets are skipped
(`continue`), all others contribute one record built from `packets[:w]`. -/
noncomputable def windowResults (fileName : String) (flows : List (String × FlowData))
    (w : Nat) : List (List (String × Val)) :=
  flows.filterMap (fun kfd =>
    if kfd.2.packets.length < w then Option.none
    else some (windowRecord fileName kfd.1 w kfd.2))

/-! ### Lookup lemmas through the statistics pipeline -/

theorem dgetInt_dinsert (d : List (String × Val)) (k k' : String) (v : Val) :
    dgetInt (dinsert d k v) k' =
      if k' = k then (match v with | .int n => n | _ => 0) else dgetInt d k' := by
  unfold dgetInt
  rw [dlookup_dinsert]
  by_cases h : k' = k
  · rw [if_pos h, if_pos h]
    cases v <;> rfl
  · rw [if_neg h, if_neg h]

theorem dgetInt_incKey (d : List (String × Val)) (k k' : String) :
    dgetInt (incKey d k) k' = if k' = k then dgetInt d k + 1 else dgetInt d k' := by
  simp only [incKey, dgetInt_dinsert]

theorem dlookup_css_ne (d : List (String × Val)) (pkts : List Packet) (pfx k : String)
    (h1 : k ≠ pfx ++ "_mean") (h2 : k ≠ pfx ++ "_min") (h3 : k ≠ pfx ++ "_max")
    (h4 : k ≠ pfx ++ "_std") (h5 : k ≠ pfx ++ "_var") (h6 : k ≠ pfx ++ "_cv") :
    dlookup (calc_size_stats d pkts pfx) k = dlookup d k := by
  simp only [calc_size_stats]
  split <;> simp [dlookup_dinsert, h1, h2, h3, h4, h5, h6]

theorem dlookup_cis_ne (d : List (String × Val)) (pkts : List Packet) (pfx k : String)
    (h1 : k ≠ pfx ++ "_mean") (h2 : k ≠ pfx ++ "_min") (h3 : k ≠ pfx ++ "_max")
    (h4 : k ≠ pfx ++ "_std") (h5 : k ≠ pfx ++ "_var") :
    dlookup (calc_iat_stats d pkts pfx) k = dlookup d k := by
  simp only [calc_iat_stats]
  split <;> simp [dlookup_dinsert, h1, h2, h3, h4, h5]

theorem dlookup_classStep_ne (d : List (String × Val)) (p : Packet) (k : String)
    (h1 : k ≠ "initial_packets") (h2 : k ≠ "handshake_packets") (h3 : k ≠ "zerortt_packets")
    (h4 : k ≠ "onertt_packets") (h5 : k ≠ "retry_packets") :
    dlookup (classStep d p) k = dlookup d k := by
  unfold classStep
  cases classify p <;> simp [clsKey, incKey, dlookup_dinsert, h1, h2, h3, h4, h5]

theorem dlookup_classLoop_ne (ps : List Packet) (d : List (String × Val)) (k : String)
    (h1 : k ≠ "initial_packets") (h2 : k ≠ "handshake_packets") (h3 : k ≠ "zerortt_packets")
    (h4 : k ≠ "onertt_packets") (h5 : k ≠ "retry_packets") :
    dlookup (classLoop d ps) k = dlookup d k := by
  induction ps generalizing d with
  | nil => rfl
  | cons p rest ih =>
    show dlookup (classLoop (classStep d p) rest) k = _
    rw [ih (classStep d p), dlookup_classStep_ne d p k h1 h2 h3 h4 h5]

/-- The value at `k` is absent or an integer. -/
def IntAt (d : List (String × Val)) (k : String) : Prop :=
  dlookup d k = Option.none ∨ ∃ n : Int, dlookup d k = some (.int n)

theorem IntAt_classStep (d : List (String × Val)) (p : Packet) (k : String)
    (h : IntAt d k) : IntAt (classStep d p) k := by
  unfold classStep
  cases clsKey (classify p) with
  | none => exact h
  | some k' =>
    unfold IntAt at h ⊢
    simp only [incKey]
    by_cases hk : k = k'
    · subst hk
      exact Or.inr ⟨_, dlookup_dinsert_self _ _ _⟩
    · rw [dlookup_dinsert_ne _ _ _ _ hk]
      exact h

theorem IntAt_classLoop (ps : List Packet) (d : List (String × Val)) (k : String)
    (h : IntAt d k) : IntAt (classLoop d ps) k := by
  induction ps generalizing d with
  | nil => exact h
  | cons p rest ih => exact ih (classStep d p) (IntAt_classStep d p k h)

theorem dgetInt_classStep (d : List (String × Val)) (p : Packet) (c : PClass) (k : String)
    (hk : clsKey c = some k) :
    dgetInt (classStep d p) k = dgetInt d k + (if classify p = c then 1 else 0) := by
  unfold classStep
  rcases hc : classify p <;> rcases c <;> simp_all [clsKey, dgetInt_incKey] <;>
    (subst hk; decide)

theorem dgetInt_classLoop (ps : List Packet) (d : List (String × Val)) (c : PClass)
    (k : String) (hk : clsKey c = some k) :
    dgetInt (classLoop d ps) k =
      dgetInt d k + (ps.countP (fun p => decide (classify p = c)) : Int) := by
  induction ps generalizing d with
  | nil => simp [classLoop]
  | cons p rest ih =>
    show dgetInt (classLoop (classStep d p) rest) k = _
    rw [ih (classStep d p), dgetInt_classStep d p c k hk, List.countP_cons]
    by_cases h : classify p = c
    · simp [h]
      omega
    · simp [h]

theorem dlookup_fill0_ne (d : List (String × Val)) (k k' : String) (h : k' ≠ k) :
    dlookup (fill0 d k) k' = dlookup d k' := by
  unfold fill0
  split
  · rfl
  · exact dlookup_dinsert_ne _ _ _ _ h

theorem dlookup_fill0_self_int (d : List (String × Val)) (k : String) (h : IntAt d k) :
    dlookup (fill0 d k) k = some (.int (dgetInt d k)) := by
  unfold fill0
  rcases h with h | ⟨n, h⟩
  · rw [if_neg (by simp [dmem_eq_isSome, h]), dlookup_dinsert_self]
    unfold dgetInt
    rw [h]
  · rw [if_pos (by simp [dmem_eq_isSome, h]), h]
    unfold dgetInt
    rw [h]

theorem dgetInt_fill0 (d : List (String × Val)) (k k' : String) :
    dgetInt (fill0 d k) k' = dgetInt d k' := by
  unfold fill0
  split
  · rfl
  · rename_i hmem
    rw [dgetInt_dinsert]
    by_cases hk : k' = k
    · subst hk
      rw [if_pos rfl]
      have hnone : dlookup d k' = Option.none := by
        rw [Bool.not_eq_true, dmem_eq_isSome] at hmem
        exact Option.not_isSome_iff_eq_none.mp (by simp [hmem])
      unfold dgetInt
      rw [hnone]
    · rw [if_neg hk]

theorem IntAt_fill0 (d : List (String × Val)) (k k' : String) (h : IntAt d k') :
    IntAt (fill0 d k) k' := by
  unfold fill0
  split
  · exact h
  · unfold IntAt at h ⊢
    by_cases hk : k' = k
    · subst hk
      exact Or.inr ⟨_, dlookup_dinsert_self _ _ _⟩
    · rw [dlookup_dinsert_ne _ _ _ _ hk]
      exact h

theorem dgetInt_zeroFill (d : List (String × Val)) (k : String) :
    dgetInt (zeroFill d) k = dgetInt d k := by
  unfold zeroFill
  rw [dgetInt_fill0, dgetInt_fill0, dgetInt_fill0, dgetInt_fill0, dgetInt_fill0]

theorem dlookup_zeroFill_ne (d : List (String × Val)) (k : String)
    (h1 : k ≠ "initial_packets") (h2 : k ≠ "handshake_packets") (h3 : k ≠ "zerortt_packets")
    (h4 : k ≠ "onertt_packets") (h5 : k ≠ "retry_packets") :
    dlookup (zeroFill d) k = dlookup d k := by
  unfold zeroFill
  rw [dlookup_fill0_ne _ _ _ h5, dlookup_fill0_ne _ _ _ h4, dlookup_fill0_ne _ _ _ h3,
    dlookup_fill0_ne _ _ _ h2, dlookup_fill0_ne _ _ _ h1]

theorem dlookup_zeroFill_cls (d : List (String × Val)) (k : String)
    (hk : k = "initial_packets" ∨ k = "handshake_packets" ∨ k = "zerortt_packets" ∨
      k = "onertt_packets" ∨ k = "retry_packets") (h : IntAt d k) :
    dlookup (zeroFill d) k = some (.int (dgetInt d k)) := by
  unfold zeroFill
  rcases hk with hk | hk | hk | hk | hk <;> subst hk
  · rw [dlookup_fill0_ne _ _ _ (by decide), dlookup_fill0_ne _ _ _ (by decide),
      dlookup_fill0_ne _ _ _ (by decide), dlookup_fill0_ne _ _ _ (by decide),
      dlookup_fill0_self_int _ _ h]
  · rw [dlookup_fill0_ne _ _ _ (by decide), dlookup_fill0_ne _ _ _ (by decide),
      dlookup_fill0_ne _ _ _ (by decide),
      dlookup_fill0_self_int _ _ (IntAt_fill0 _ _ _ h), dgetInt_fill0]
  · rw [dlookup_fill0_ne _ _ _ (by decide), dlookup_fill0_ne _ _ _ (by decide),
      dlookup_fill0_self_int _ _ (IntAt_fill0 _ _ _ (IntAt_fill0 _ _ _ h)),
      dgetInt_fill0, dgetInt_fill0]
  · rw [dlookup_fill0_ne _ _ _ (by decide),
      dlookup_fill0_self_int _ _
        (IntAt_fill0 _ _ _ (IntAt_fill0 _ _ _ (IntAt_fill0 _ _ _ h))),
      dgetInt_fill0, dgetInt_fill0, dgetInt_fill0]
  · rw [dlookup_fill0_self_int _ _
        (IntAt_fill0 _ _ _ (IntAt_fill0 _ _ _ (IntAt_fill0 _ _ _ (IntAt_fill0 _ _ _ h)))),
      dgetInt_fill0, dgetInt_fill0, dgetInt_fill0, dgetInt_fill0]

theorem dlookup_ratioStage_ne (d : List (String × Val)) (t : Nat) (k : String)
    (h1 : k ≠ "initial_ratio") (h2 : k ≠ "handshake_ratio") (h3 : k ≠ "zerortt_ratio")
    (h4 : k ≠ "onertt_ratio") (h5 : k ≠ "retry_ratio") :
    dlookup (ratioStage d t) k = dlookup d k := by
  unfold ratioStage
  split <;> simp [dlookup_dinsert, h1, h2, h3, h4, h5]

theorem dlookup_ratioStage_pos (d : List (String × Val)) (t : Nat) (ht : 0 < t) :
    dlookup (ratioStage d t) "initial_ratio" =
      some (.r ((dgetInt d "initial_packets" : ℝ) / (t : ℝ))) ∧
    dlookup (ratioStage d t) "handshake_ratio" =
      some (.r ((dgetInt d "handshake_packets" : ℝ) / (t : ℝ))) ∧
    dlookup (ratioStage d t) "zerortt_ratio" =
      some (.r ((dgetInt d "zerortt_packets" : ℝ) / (t : ℝ))) ∧
    dlookup (ratioStage d t) "onertt_ratio" =
      some (.r ((dgetInt d "onertt_packets" : ℝ) / (t : ℝ))) ∧
    dlookup (ratioStage d t) "retry_ratio" =
      some (.r ((dgetInt d "retry_packets" : ℝ) / (t : ℝ))) := by
  unfold ratioStage
  rw [if_pos ht]
  refine ⟨?_, ?_, ?_, ?_, ?_⟩ <;> simp [dlookup_dinsert, dgetInt_dinsert]

/-- A concrete short-header packet used to instantiate theorems. -/
def samplePacket : Packet :=
  { src_ip := "10.0.0.1", dst_ip := "10.0.0.2", src_port := "1000", dst_port := "443",
    size := 100, timestamp := 1, packet_type := "", is_long_header := false,
    is_short_header := true, quic_length := 0, quic_version := "", dcid := "", scid := "",
    direction := some "outgoing" }

/-- A well-formed tshark line (empty timestamp field) used to instantiate
parser theorems. -/
def goodLine : String := "1.1.1.1|2.2.2.2|||100|443|50||initial|20|v1|d1|s1"

/-- The packet parsed from `goodLine`. -/
def goodPacket : Packet :=
  { src_ip := "1.1.1.1", dst_ip := "2.2.2.2", src_port := "100", dst_port := "443",
    size := 50, timestamp := 0, packet_type := "initial", is_long_header := true,
    is_short_header := false, quic_length := 20, quic_version := "v1", dcid := "d1",
    scid := "s1", direction := Option.none }

/-! ### Claim theorems -/

/-- C1: Leakage isolation — the feature vector computed for a window of `N`
packets is a pure function of those `N` packets: for a flow `P ++ Q` whose
first `N` packets are `P`, slicing the first `N` packets out of the longer
flow and applying `calculate_comprehensive_statistics` gives exactly the
result of applying it to the flow `P` of exactly `N` packets; packets
`N+1..end` and the flow length do not influence the result. -/
theorem leakage_isolation (P Q : List Packet) (N : Nat) (hP : P.length = N) :
    calculate_comprehensive_statistics ((P ++ Q).take N) =
      calculate_comprehensive_statistics P := by
  subst hP
  rw [List.take_left]

theorem leakage_isolation_witness :
    ([samplePacket].length = 1) ∧
    calculate_comprehensive_statistics (([samplePacket] ++ [samplePacket, samplePacket]).take 1) =
      calculate_comprehensive_statistics [samplePacket] :=
  ⟨rfl, leakage_isolation [samplePacket] [samplePacket, samplePacket] 1 rfl⟩

/-- C2: Flow-key symmetry — the canonical flow key of a packet `A→B` equals
the flow key of a packet `B→A`, and the key is the smaller (Python `min`)
of the two directional strings `"srcip:srcport->dstip:dstport"`. -/
theorem flow_key_symmetry (a_ip a_port b_ip b_port : String) :
    flowId a_ip b_ip a_port b_port = flowId b_ip a_ip b_port a_port ∧
    flowId a_ip b_ip a_port b_port =
      pyMinStr (a_ip ++ ":" ++ a_port ++ "->" ++ b_ip ++ ":" ++ b_port)
        (b_ip ++ ":" ++ b_port ++ "->" ++ a_ip ++ ":" ++ a_port) := by
  constructor
  · unfold flowId
    exact pyMinStr_comm _ _
  · rfl

/-- C8: Constant spin-bit features — for every non-empty slice the engine
emits `spin_bit_count = 0`, `spin_bit_ratio = 0.0`, `no_spin_bit_ratio = 1.0`
regardless of the packets. -/
theorem spin_bit_constant (ps : List Packet) (h : ps ≠ []) :
    dlookup (calculate_comprehensive_statistics ps) "spin_bit_count" = some (.int 0) ∧
    dlookup (calculate_comprehensive_statistics ps) "spin_bit_ratio" = some (.r 0) ∧
    dlookup (calculate_comprehensive_statistics ps) "no_spin_bit_ratio" = some (.r 1) := by
  unfold calculate_comprehensive_statistics
  rw [if_neg h]
  refine ⟨?_, ?_, ?_⟩ <;>
    simp [dlookup_ite, dlookup_dinsert, dlookup_ratioStage_ne, dlookup_zeroFill_ne,
      dlookup_classLoop_ne, dlookup_cis_ne, dlookup_css_ne]

theorem spin_bit_constant_witness :
    ([samplePacket] : List Packet) ≠ [] ∧
    (dlookup (calculate_comprehensive_statistics [samplePacket]) "spin_bit_count"
        = some (.int 0) ∧
      dlookup (calculate_comprehensive_statistics [samplePacket]) "spin_bit_ratio"
        = some (.r 0) ∧
      dlookup (calculate_comprehensive_statistics [samplePacket]) "no_spin_bit_ratio"
        = some (.r 1)) :=
  ⟨by simp, spin_bit_constant [samplePacket] (by simp)⟩

/-! ### Helpers for the remaining claims -/

theorem strApp_ne (pfx a b : String) (h : a ≠ b) : pfx ++ a ≠ pfx ++ b := by
  intro he
  apply h
  obtain ⟨dp⟩ := pfx
  obtain ⟨da⟩ := a
  obtain ⟨db⟩ := b
  have hd : dp ++ da = dp ++ db := congrArg String.data he
  exact congrArg String.mk (List.append_cancel_left hd)

theorem strMk_eq_empty_iff (l : List Char) : (⟨l⟩ : String) = "" ↔ l = [] := by
  constructor
  · intro h
    exact congrArg String.data h
  · intro h
    subst h
    rfl

/-- In `calc_size_stats`, an empty positive-size list yields integer-zero
defaults, in particular for the cv and the mean. -/
theorem dlookup_css_empty (d : List (String × Val)) (pkts : List Packet) (pfx : String)
    (hs : (pkts.map (fun p => p.size)).filter (fun s => decide (0 < s)) = []) :
    dlookup (calc_size_stats d pkts pfx) (pfx ++ "_cv") = some (.int 0) ∧
    dlookup (calc_size_stats d pkts pfx) (pfx ++ "_mean") = some (.int 0) := by
  simp only [calc_size_stats]
  rw [if_pos hs]
  constructor
  · rw [dlookup_dinsert_self]
  · rw [dlookup_dinsert_ne _ _ _ _ (strApp_ne pfx _ _ (by decide)),
      dlookup_dinsert_ne _ _ _ _ (strApp_ne pfx _ _ (by decide)),
      dlookup_dinsert_ne _ _ _ _ (strApp_ne pfx _ _ (by decide)),
      dlookup_dinsert_ne _ _ _ _ (strApp_ne pfx _ _ (by decide)),
      dlookup_dinsert_ne _ _ _ _ (strApp_ne pfx _ _ (by decide)),
      dlookup_dinsert_self]

/-- Specialisation of `dlookup_css_empty` to the incoming-subset feature
key, with the key concatenation evaluated. -/
theorem dlookup_css_in_cv_empty (d : List (String × Val)) (pkts : List Packet)
    (hs : (pkts.map (fun p => p.size)).filter (fun s => decide (0 < s)) = []) :
    dlookup (calc_size_stats d pkts "packet_size_in") "packet_size_in_cv" = some (.int 0) := by
  have h := (dlookup_css_empty d pkts "packet_size_in" hs).1
  simpa using h

theorem filter_short_long_length (ps : List Packet)
    (hc : ∀ p ∈ ps, p.is_short_header = !p.is_long_header) :
    (ps.filter (fun p => p.is_short_header)).length +
      (ps.filter (fun p => p.is_long_header)).length = ps.length := by
  induction ps with
  | nil => rfl
  | cons p rest ih =>
    have hp := hc p (List.mem_cons_self p rest)
    have ih' := ih (fun q hq => hc q (List.mem_cons_of_mem p hq))
    rcases hb : p.is_long_header with _ | _ <;> rw [hb] at hp <;>
      simp [List.filter_cons, hp, hb, Nat.succ_eq_add_one] <;> omega

theorem filter_dir_partition (ps : List Packet)
    (hdir : ∀ p ∈ ps, p.direction = some "outgoing" ∨ p.direction = some "incoming") :
    (ps.filter (fun p => p.direction == some "outgoing")).length +
      (ps.filter (fun p => p.direction == some "incoming")).length = ps.length ∧
    ((ps.filter (fun p => p.direction == some "outgoing")).map (fun p => p.size)).sum +
      ((ps.filter (fun p => p.direction == some "incoming")).map (fun p => p.size)).sum =
      (ps.map (fun p => p.size)).sum := by
  induction ps with
  | nil => simp
  | cons p rest ih =>
    obtain ⟨ih1, ih2⟩ := ih (fun q hq => hdir q (List.mem_cons_of_mem p hq))
    rcases hdir p (List.mem_cons_self p rest) with hd | hd <;>
      refine ⟨?_, ?_⟩ <;> simp [List.filter_cons, hd, beq_iff_eq] <;> omega

/-- C4 counterexample: on the empty slice the engine returns the empty
dict, so the ratio/cv features are **missing**, not present with value 0. -/
theorem empty_slice_counterexample :
    calculate_comprehensive_statistics ([] : List Packet) = [] ∧
    dlookup (calculate_comprehensive_statistics ([] : List Packet)) "short_header_ratio" =
      Option.none ∧
    dlookup (calculate_comprehensive_statistics ([] : List Packet)) "packet_size_cv" =
      Option.none ∧
    dlookup (calculate_comprehensive_statistics ([] : List Packet)) "initial_ratio" =
      Option.none := by
  refine ⟨rfl, rfl, rfl, rfl⟩

/-- C4 (amended): for the empty slice the engine returns an **empty**
feature vector (no keys, hence no NaN and no error); for the per-subset
statistics, a division whose denominator would be degenerate (no positive
sizes in the subset) yields the defined default 0 — shown both for
`calc_size_stats` itself and inside the full engine for the incoming
subset. -/
theorem empty_slice_amended :
    calculate_comprehensive_statistics ([] : List Packet) = [] ∧
    (∀ (d : List (String × Val)) (pkts : List Packet) (pfx : String),
      (pkts.map (fun p => p.size)).filter (fun s => decide (0 < s)) = [] →
      dlookup (calc_size_stats d pkts pfx) (pfx ++ "_cv") = some (.int 0) ∧
      dlookup (calc_size_stats d pkts pfx) (pfx ++ "_mean") = some (.int 0)) ∧
    (∀ ps : List Packet, ps ≠ [] →
      ((ps.filter (fun p => p.direction == some "incoming")).map (fun p => p.size)).filter
        (fun s => decide (0 < s)) = [] →
      dlookup (calculate_comprehensive_statistics ps) "packet_size_in_cv" = some (.int 0)) := by
  refine ⟨rfl, fun d pkts pfx hs => dlookup_css_empty d pkts pfx hs, ?_⟩
  intro ps h hin
  unfold calculate_comprehensive_statistics
  rw [if_neg h]
  simp [dlookup_ite, dlookup_dinsert, dlookup_ratioStage_ne, dlookup_zeroFill_ne,
    dlookup_classLoop_ne, dlookup_cis_ne, dlookup_css_in_cv_empty, hin, dlookup_css_ne]

theorem empty_slice_amended_witness :
    (([samplePacket] : List Packet) ≠ [] ∧
      (([samplePacket].filter (fun p => p.direction == some "incoming")).map
        (fun p => p.size)).filter (fun s => decide (0 < s)) = []) ∧
    dlookup (calculate_comprehensive_statistics [samplePacket]) "packet_size_in_cv" =
      some (.int 0) :=
  ⟨⟨by simp, by decide⟩, empty_slice_amended.2.2 [samplePacket] (by simp) (by decide)⟩

/-- C9: Header-class complementarity — every parsed packet is long-header
exactly when its packet type tag is non-empty and short-header exactly
otherwise; hence for every non-empty slice the short/long header counts sum
to the total and the two ratios sum to 1. -/
theorem header_class_complementarity :
    (∀ (line : String) (p : Packet), parseLine line = some p →
      ((p.is_long_header = true) ↔ p.packet_type ≠ "") ∧
      p.is_short_header = !p.is_long_header) ∧
    (∀ ps : List Packet, ps ≠ [] →
      (∀ p ∈ ps, p.is_short_header = !p.is_long_header) →
      dlookup (calculate_comprehensive_statistics ps) "short_header_count" =
        some (.int ((ps.filter (fun p => p.is_short_header)).length)) ∧
      dlookup (calculate_comprehensive_statistics ps) "long_header_count" =
        some (.int ((ps.filter (fun p => p.is_long_header)).length)) ∧
      (ps.filter (fun p => p.is_short_header)).length +
        (ps.filter (fun p => p.is_long_header)).length = ps.length ∧
      dlookup (calculate_comprehensive_statistics ps) "short_header_ratio" =
        some (.r (((ps.filter (fun p => p.is_short_header)).length : ℝ) / (ps.length : ℝ))) ∧
      dlookup (calculate_comprehensive_statistics ps) "long_header_ratio" =
        some (.r (((ps.filter (fun p => p.is_long_header)).length : ℝ) / (ps.length : ℝ))) ∧
      ((ps.filter (fun p => p.is_short_header)).length : ℝ) / (ps.length : ℝ) +
        ((ps.filter (fun p => p.is_long_header)).length : ℝ) / (ps.length : ℝ) = 1) := by
  constructor
  · intro line p hp
    unfold parseLine at hp
    by_cases h1 : pyStrip line.data = []
    · rw [if_pos h1] at hp
      cases hp
    · rw [if_neg h1] at hp
      by_cases h2 : (lineFields line).length < 8
      · rw [if_pos h2] at hp
        cases hp
      · rw [if_neg h2] at hp
        by_cases h3 : srcIpOf line = [] ∨ dstIpOf line = [] ∨ fieldAt line 4 = [] ∨
            fieldAt line 5 = []
        · rw [if_pos h3] at hp
          cases hp
        · rw [if_neg h3] at hp
          rcases hA : sizeParsed line with _ | sz <;> rw [hA] at hp
          · cases hp
          rcases hB : tsParsed line with _ | ts <;> rw [hB] at hp
          · cases hp
          rcases hC : qlParsed line with _ | ql <;> rw [hC] at hp
          · cases hp
          injection hp with hrec
          subst hrec
          constructor
          · by_cases hpt : fieldAt line 8 = []
            · simp [hpt]
            · have hne : pyLower ⟨fieldAt line 8⟩ ≠ "" := by
                unfold pyLower
                rw [Ne, strMk_eq_empty_iff]
                simp [hpt]
              simp [hpt, hne]
          · simp
  · intro ps h hcomp
    have hsum := filter_short_long_length ps hcomp
    have hn : (ps.length : ℝ) ≠ 0 := by
      simp [List.length_eq_zero, h]
    have hdivSum : ((ps.filter (fun p => p.is_short_header)).length : ℝ) / (ps.length : ℝ) +
        ((ps.filter (fun p => p.is_long_header)).length : ℝ) / (ps.length : ℝ) = 1 := by
      rw [div_add_div_same, div_eq_one_iff_eq hn]
      exact_mod_cast hsum
    refine ⟨?_, ?_, hsum, ?_, ?_, hdivSum⟩ <;>
      · unfold calculate_comprehensive_statistics
        rw [if_neg h]
        simp [h, dlookup_ite, dlookup_dinsert, dlookup_ratioStage_ne, dlookup_zeroFill_ne,
          dlookup_classLoop_ne, dlookup_cis_ne, dlookup_css_ne]

theorem header_class_complementarity_witness :
    (parseLine goodLine = some goodPacket ∧
      ((goodPacket.is_long_header = true) ↔ goodPacket.packet_type ≠ "") ∧
      goodPacket.is_short_header = !goodPacket.is_long_header) ∧
    (([samplePacket] : List Packet) ≠ [] ∧
      dlookup (calculate_comprehensive_statistics [samplePacket]) "short_header_count" =
        some (.int (([samplePacket].filter (fun p => p.is_short_header)).length))) :=
  ⟨⟨by decide, (header_class_complementarity.1 goodLine goodPacket (by decide)).1,
      (header_class_complementarity.1 goodLine goodPacket (by decide)).2⟩,
    by simp,
    (header_class_complementarity.2 [samplePacket] (by simp) (by decide)).1⟩

/-- C10: Directional partition — for every non-empty slice whose packets all
carry direction `outgoing` or `incoming` (as the flow assembler guarantees),
outgoing + incoming packet counts equal the total count and outgoing +
incoming bytes equal the total bytes. -/
theorem directional_partition (ps : List Packet) (h : ps ≠ [])
    (hdir : ∀ p ∈ ps, p.direction = some "outgoing" ∨ p.direction = some "incoming") :
    dlookup (calculate_comprehensive_statistics ps) "total_packets" =
      some (.int (ps.length : Int)) ∧
    dlookup (calculate_comprehensive_statistics ps) "outgoing_packets" =
      some (.int ((ps.filter (fun p => p.direction == some "outgoing")).length)) ∧
    dlookup (calculate_comprehensive_statistics ps) "incoming_packets" =
      some (.int ((ps.filter (fun p => p.direction == some "incoming")).length)) ∧
    (ps.filter (fun p => p.direction == some "outgoing")).length +
      (ps.filter (fun p => p.direction == some "incoming")).length = ps.length ∧
    dlookup (calculate_comprehensive_statistics ps) "total_bytes" =
      some (.int ((ps.map (fun p => p.size)).sum)) ∧
    dlookup (calculate_comprehensive_statistics ps) "outgoing_bytes" =
      some (.int (((ps.filter (fun p => p.direction == some "outgoing")).map
        (fun p => p.size)).sum)) ∧
    dlookup (calculate_comprehensive_statistics ps) "incoming_bytes" =
      some (.int (((ps.filter (fun p => p.direction == some "incoming")).map
        (fun p => p.size)).sum)) ∧
    ((ps.filter (fun p => p.direction == some "outgoing")).map (fun p => p.size)).sum +
      ((ps.filter (fun p => p.direction == some "incoming")).map (fun p => p.size)).sum =
      (ps.map (fun p => p.size)).sum := by
  obtain ⟨hlen, hbytes⟩ := filter_dir_partition ps hdir
  refine ⟨?_, ?_, ?_, hlen, ?_, ?_, ?_, hbytes⟩ <;>
    · unfold calculate_comprehensive_statistics
      rw [if_neg h]
      simp [dlookup_ite, dlookup_dinsert, dlookup_ratioStage_ne, dlookup_zeroFill_ne,
        dlookup_classLoop_ne, dlookup_cis_ne, dlookup_css_ne]

theorem directional_partition_witness :
    (([samplePacket] : List Packet) ≠ [] ∧
      (∀ p ∈ ([samplePacket] : List Packet),
        p.direction = some "outgoing" ∨ p.direction = some "incoming")) ∧
    dlookup (calculate_comprehensive_statistics [samplePacket]) "total_packets" =
      some (.int (([samplePacket] : List Packet).length : Int)) :=
  ⟨⟨by simp, by decide⟩,
    (directional_partition [samplePacket] (by simp) (by decide)).1⟩

/-- After the classification loop and zero-fill, each protocol-state counter
key holds exactly the number of packets classified into its class, provided
the key was absent beforehand. -/
theorem cls_pipeline_lookup (s5 : List (String × Val)) (ps : List Packet) (c : PClass)
    (k : String) (hk : clsKey c = some k) (hnone : dlookup s5 k = Option.none) :
    dlookup (zeroFill (classLoop s5 ps)) k =
      some (.int (ps.countP (fun p => decide (classify p = c)))) := by
  rcases c
  case unclassified => exact absurd hk (by simp [clsKey])
  case initial =>
    injection hk with h
    subst h
    rw [dlookup_zeroFill_cls _ _ (Or.inl rfl) (IntAt_classLoop ps s5 _ (Or.inl hnone)),
      dgetInt_classLoop ps s5 PClass.initial _ rfl]
    unfold dgetInt
    rw [hnone]
    simp
  case handshake =>
    injection hk with h
    subst h
    rw [dlookup_zeroFill_cls _ _ (Or.inr (Or.inl rfl))
      (IntAt_classLoop ps s5 _ (Or.inl hnone)),
      dgetInt_classLoop ps s5 PClass.handshake _ rfl]
    unfold dgetInt
    rw [hnone]
    simp
  case zerortt =>
    injection hk with h
    subst h
    rw [dlookup_zeroFill_cls _ _ (Or.inr (Or.inr (Or.inl rfl)))
      (IntAt_classLoop ps s5 _ (Or.inl hnone)),
      dgetInt_classLoop ps s5 PClass.zerortt _ rfl]
    unfold dgetInt
    rw [hnone]
    simp
  case onertt =>
    injection hk with h
    subst h
    rw [dlookup_zeroFill_cls _ _ (Or.inr (Or.inr (Or.inr (Or.inl rfl))))
      (IntAt_classLoop ps s5 _ (Or.inl hnone)),
      dgetInt_classLoop ps s5 PClass.onertt _ rfl]
    unfold dgetInt
    rw [hnone]
    simp
  case retry =>
    injection hk with h
    subst h
    rw [dlookup_zeroFill_cls _ _ (Or.inr (Or.inr (Or.inr (Or.inr rfl))))
      (IntAt_classLoop ps s5 _ (Or.inl hnone)),
      dgetInt_classLoop ps s5 PClass.retry _ rfl]
    unfold dgetInt
    rw [hnone]
    simp

/-- The five protocol-state ratios after the full counting pipeline. -/
theorem ratioPipeline (s5 : List (String × Val)) (ps : List Packet) (n : Nat) (hn : 0 < n)
    (h1 : dlookup s5 "initial_packets" = Option.none)
    (h2 : dlookup s5 "handshake_packets" = Option.none)
    (h3 : dlookup s5 "zerortt_packets" = Option.none)
    (h4 : dlookup s5 "onertt_packets" = Option.none)
    (h5 : dlookup s5 "retry_packets" = Option.none) :
    dlookup (ratioStage (zeroFill (classLoop s5 ps)) n) "initial_ratio" =
      some (.r ((ps.countP (fun p => decide (classify p = PClass.initial)) : ℝ) / (n : ℝ))) ∧
    dlookup (ratioStage (zeroFill (classLoop s5 ps)) n) "handshake_ratio" =
      some (.r ((ps.countP (fun p => decide (classify p = PClass.handshake)) : ℝ) / (n : ℝ))) ∧
    dlookup (ratioStage (zeroFill (classLoop s5 ps)) n) "zerortt_ratio" =
      some (.r ((ps.countP (fun p => decide (classify p = PClass.zerortt)) : ℝ) / (n : ℝ))) ∧
    dlookup (ratioStage (zeroFill (classLoop s5 ps)) n) "onertt_ratio" =
      some (.r ((ps.countP (fun p => decide (classify p = PClass.onertt)) : ℝ) / (n : ℝ))) ∧
    dlookup (ratioStage (zeroFill (classLoop s5 ps)) n) "retry_ratio" =
      some (.r ((ps.countP (fun p => decide (classify p = PClass.retry)) : ℝ) / (n : ℝ))) := by
  obtain ⟨e1, e2, e3, e4, e5⟩ := dlookup_ratioStage_pos (zeroFill (classLoop s5 ps)) n hn
  refine ⟨?_, ?_, ?_, ?_, ?_⟩
  · rw [e1, dgetInt_zeroFill, dgetInt_classLoop ps s5 PClass.initial _ rfl]
    unfold dgetInt
    rw [h1]
    simp
  · rw [e2, dgetInt_zeroFill, dgetInt_classLoop ps s5 PClass.handshake _ rfl]
    unfold dgetInt
    rw [h2]
    simp
  · rw [e3, dgetInt_zeroFill, dgetInt_classLoop ps s5 PClass.zerortt _ rfl]
    unfold dgetInt
    rw [h3]
    simp
  · rw [e4, dgetInt_zeroFill, dgetInt_classLoop ps s5 PClass.onertt _ rfl]
    unfold dgetInt
    rw [h4]
    simp
  · rw [e5, dgetInt_zeroFill, dgetInt_classLoop ps s5 PClass.retry _ rfl]
    unfold dgetInt
    rw [h5]
    simp

/-- The protocol-state counter features of the full engine. -/
theorem calcStats_cls_lookup (ps : List Packet) (h : ps ≠ []) (c : PClass) (k : String)
    (hk : clsKey c = some k) :
    dlookup (calculate_comprehensive_statistics ps) k =
      some (.int (ps.countP (fun p => decide (classify p = c)))) := by
  have hmem : k = "initial_packets" ∨ k = "handshake_packets" ∨ k = "zerortt_packets" ∨
      k = "onertt_packets" ∨ k = "retry_packets" := by
    rcases c <;> simp [clsKey] at hk <;> simp [hk.symm]
  unfold calculate_comprehensive_statistics
  rw [if_neg h]
  rcases hmem with hm | hm | hm | hm | hm <;> subst hm <;>
    · simp [dlookup_ite, dlookup_dinsert, dlookup_ratioStage_ne]
      exact cls_pipeline_lookup _ ps c _ hk
        (by simp [dlookup_dinsert, dlookup_cis_ne, dlookup_css_ne])

/-- The protocol-state ratio features of the full engine. -/
theorem calcStats_ratio_lookup (ps : List Packet) (h : ps ≠ []) :
    dlookup (calculate_comprehensive_statistics ps) "initial_ratio" =
      some (.r ((ps.countP (fun p => decide (classify p = PClass.initial)) : ℝ) /
        (ps.length : ℝ))) ∧
    dlookup (calculate_comprehensive_statistics ps) "handshake_ratio" =
      some (.r ((ps.countP (fun p => decide (classify p = PClass.handshake)) : ℝ) /
        (ps.length : ℝ))) ∧
    dlookup (calculate_comprehensive_statistics ps) "zerortt_ratio" =
      some (.r ((ps.countP (fun p => decide (classify p = PClass.zerortt)) : ℝ) /
        (ps.length : ℝ))) ∧
    dlookup (calculate_comprehensive_statistics ps) "onertt_ratio" =
      some (.r ((ps.countP (fun p => decide (classify p = PClass.onertt)) : ℝ) /
        (ps.length : ℝ))) ∧
    dlookup (calculate_comprehensive_statistics ps) "retry_ratio" =
      some (.r ((ps.countP (fun p => decide (classify p = PClass.retry)) : ℝ) /
        (ps.length : ℝ))) := by
  have hn : 0 < ps.length := List.length_pos.mpr h
  unfold calculate_comprehensive_statistics
  rw [if_neg h]
  simp only [dlookup_ite]
  simp [dlookup_dinsert]
  exact ratioPipeline _ ps _ hn
    (by simp [dlookup_dinsert, dlookup_cis_ne, dlookup_css_ne])
    (by simp [dlookup_dinsert, dlookup_cis_ne, dlookup_css_ne])
    (by simp [dlookup_dinsert, dlookup_cis_ne, dlookup_css_ne])
    (by simp [dlookup_dinsert, dlookup_cis_ne, dlookup_css_ne])
    (by simp [dlookup_dinsert, dlookup_cis_ne, dlookup_css_ne])

/-- C5: Protocol-state classification — each packet is classified by testing
its packet-type tag in the fixed priority order initial, handshake,
zero-rtt, retry (first match wins), a packet matching none of the four is
one-rtt exactly when it has a short header; the five counter features are
always present in the output of a non-empty slice (zero-filled when never
observed) and each ratio equals its counter divided by the slice length. -/
theorem protocol_state_classification (ps : List Packet) (h : ps ≠ []) :
    (∀ p : Packet,
      ((classify p = PClass.initial) ↔ indInitial p = true) ∧
      ((classify p = PClass.handshake) ↔ (indInitial p = false ∧ indHandshake p = true)) ∧
      ((classify p = PClass.zerortt) ↔
        (indInitial p = false ∧ indHandshake p = false ∧ indZerortt p = true)) ∧
      ((classify p = PClass.retry) ↔
        (indInitial p = false ∧ indHandshake p = false ∧ indZerortt p = false ∧
          indRetry p = true)) ∧
      ((classify p = PClass.onertt) ↔
        (indInitial p = false ∧ indHandshake p = false ∧ indZerortt p = false ∧
          indRetry p = false ∧ p.is_short_header = true))) ∧
    (dlookup (calculate_comprehensive_statistics ps) "initial_packets" =
        some (.int (ps.countP (fun p => decide (classify p = PClass.initial)))) ∧
      dlookup (calculate_comprehensive_statistics ps) "handshake_packets" =
        some (.int (ps.countP (fun p => decide (classify p = PClass.handshake)))) ∧
      dlookup (calculate_comprehensive_statistics ps) "zerortt_packets" =
        some (.int (ps.countP (fun p => decide (classify p = PClass.zerortt)))) ∧
      dlookup (calculate_comprehensive_statistics ps) "onertt_packets" =
        some (.int (ps.countP (fun p => decide (classify p = PClass.onertt)))) ∧
      dlookup (calculate_comprehensive_statistics ps) "retry_packets" =
        some (.int (ps.countP (fun p => decide (classify p = PClass.retry))))) ∧
    (dlookup (calculate_comprehensive_statistics ps) "initial_ratio" =
        some (.r ((ps.countP (fun p => decide (classify p = PClass.initial)) : ℝ) /
          (ps.length : ℝ))) ∧
      dlookup (calculate_comprehensive_statistics ps) "handshake_ratio" =
        some (.r ((ps.countP (fun p => decide (classify p = PClass.handshake)) : ℝ) /
          (ps.length : ℝ))) ∧
      dlookup (calculate_comprehensive_statistics ps) "zerortt_ratio" =
        some (.r ((ps.countP (fun p => decide (classify p = PClass.zerortt)) : ℝ) /
          (ps.length : ℝ))) ∧
      dlookup (calculate_comprehensive_statistics ps) "onertt_ratio" =
        some (.r ((ps.countP (fun p => decide (classify p = PClass.onertt)) : ℝ) /
          (ps.length : ℝ))) ∧
      dlookup (calculate_comprehensive_statistics ps) "retry_ratio" =
        some (.r ((ps.countP (fun p => decide (classify p = PClass.retry)) : ℝ) /
          (ps.length : ℝ)))) := by
  refine ⟨?_,
    ⟨calcStats_cls_lookup ps h PClass.initial _ rfl,
      calcStats_cls_lookup ps h PClass.handshake _ rfl,
      calcStats_cls_lookup ps h PClass.zerortt _ rfl,
      calcStats_cls_lookup ps h PClass.onertt _ rfl,
      calcStats_cls_lookup ps h PClass.retry _ rfl⟩,
    calcStats_ratio_lookup ps h⟩
  intro p
  rcases hI : indInitial p with _ | _ <;> rcases hH : indHandshake p with _ | _ <;>
    rcases hZ : indZerortt p with _ | _ <;> rcases hR : indRetry p with _ | _ <;>
    rcases hS : p.is_short_header with _ | _ <;>
    simp [classify, hI, hH, hZ, hR, hS]

theorem protocol_state_classification_witness :
    (([goodPacket] : List Packet) ≠ []) ∧
    dlookup (calculate_comprehensive_statistics [goodPacket]) "initial_packets" =
      some (.int (([goodPacket] : List Packet).countP
        (fun p => decide (classify p = PClass.initial)))) :=
  ⟨by simp, (protocol_state_classification [goodPacket] (by simp)).2.1.1⟩

/-! ### C6: record-parser skip conditions -/

theorem sizeParsed_none_iff (line : String) :
    sizeParsed line = Option.none ↔
      (fieldAt line 6 ≠ [] ∧ pyInt (fieldAt line 6) = Option.none) := by
  unfold sizeParsed
  split
  · rename_i hne
    simp [hne]
  · rename_i hne
    simp [hne]

theorem tsParsed_none_iff (line : String) :
    tsParsed line = Option.none ↔
      (fieldAt line 7 ≠ [] ∧ pyFloat (fieldAt line 7) = Option.none) := by
  unfold tsParsed
  split
  · rename_i hne
    simp [hne]
  · rename_i hne
    simp [hne]

theorem qlParsed_none_iff (line : String) :
    qlParsed line = Option.none ↔
      (fieldAt line 9 ≠ [] ∧ pyInt (fieldAt line 9) = Option.none) := by
  unfold qlParsed
  split
  · rename_i hne
    simp [hne]
  · rename_i hne
    simp [hne]

/-- The skip conditions as the specification states them: empty line, too
few fields, missing addresses (after IPv4-over-IPv6 priority), missing
ports, or failing numeric parse of size or timestamp. -/
def claimSkip (line : String) : Prop :=
  pyStrip line.data = [] ∨ (lineFields line).length < 8 ∨
  srcIpOf line = [] ∨ dstIpOf line = [] ∨ fieldAt line 4 = [] ∨ fieldAt line 5 = [] ∨
  (fieldAt line 6 ≠ [] ∧ pyInt (fieldAt line 6) = Option.none) ∨
  (fieldAt line 7 ≠ [] ∧ pyFloat (fieldAt line 7) = Option.none)

/-- The skip conditions the code actually implements: additionally, a
non-empty `quic.packet_length` field that fails integer parsing. -/
def amendedSkip (line : String) : Prop :=
  claimSkip line ∨ (fieldAt line 9 ≠ [] ∧ pyInt (fieldAt line 9) = Option.none)

/-- A line with 10 well-formed mandatory fields whose optional
`quic.packet_length` field is not numeric. -/
def badLine : String := "1.1.1.1|2.2.2.2|||100|443|50|1.5|initial|xx"

/-- C6 counterexample: `badLine` is skipped by the parser although none of
the claim's listed skip conditions holds. -/
theorem record_parser_counterexample :
    parseLine badLine = Option.none ∧ ¬ claimSkip badLine := by
  constructor
  · rfl
  · unfold claimSkip
    decide

/-- C6 (amended): a line is skipped exactly when it is empty/whitespace,
has fewer than 8 fields, lacks a source or destination address (IPv4 taking
priority over IPv6), lacks a port, or a non-empty size, timestamp **or
inner-length (`quic.packet_length`)** field fails numeric parsing; the
parser is total, so no line raises. -/
theorem record_parser_skip (line : String) :
    parseLine line = Option.none ↔ amendedSkip line := by
  unfold amendedSkip claimSkip
  rw [← sizeParsed_none_iff, ← tsParsed_none_iff, ← qlParsed_none_iff]
  unfold parseLine
  by_cases h1 : pyStrip line.data = []
  · simp [h1]
  · rw [if_neg h1]
    by_cases h2 : (lineFields line).length < 8
    · simp [h1, h2]
    · rw [if_neg h2]
      by_cases h3 : srcIpOf line = [] ∨ dstIpOf line = [] ∨ fieldAt line 4 = [] ∨
          fieldAt line 5 = []
      · rw [if_pos h3]
        constructor
        · intro _
          tauto
        · intro _
          rfl
      · rw [if_neg h3]
        push_neg at h3
        obtain ⟨h3a, h3b, h3c, h3d⟩ := h3
        rcases hA : sizeParsed line with _ | sz <;> rcases hB : tsParsed line with _ | ts <;>
          rcases hC : qlParsed line with _ | ql <;>
          simp [hA, hB, hC, h1, h2, h3a, h3b, h3c, h3d]

theorem record_parser_skip_witness :
    amendedSkip badLine ∧ parseLine badLine = Option.none :=
  ⟨Or.inr ⟨by decide, by decide⟩,
    (record_parser_skip badLine).mpr (Or.inr ⟨by decide, by decide⟩)⟩

/-- C7: Client/server roles and direction — for every flow produced by the
assembler, the client endpoint is the (source address, source port) of the
flow's first packet in arrival order, the server endpoint is that packet's
destination, and every packet of the flow carries direction `outgoing`
exactly when its source endpoint equals the client endpoint and `incoming`
otherwise. -/
theorem client_server_roles (ps : List Packet) (fid : String) (fd : FlowData)
    (hmem : (fid, fd) ∈ extract_quic_flows ps) (p0 : Packet)
    (hh : fd.packets.head? = some p0) :
    fd.client_ip = some p0.src_ip ∧ fd.client_port = some p0.src_port ∧
    fd.server_ip = some p0.dst_ip ∧ fd.server_port = some p0.dst_port ∧
    ∀ p ∈ fd.packets,
      p.direction = some (if p.src_ip = p0.src_ip ∧ p.src_port = p0.src_port
        then "outgoing" else "incoming") := by
  unfold extract_quic_flows at hmem
  obtain ⟨⟨fid0, fd0⟩, hmem0, heq⟩ := List.mem_map.mp hmem
  injection heq with hfid hfd
  subst hfid
  subst hfd
  rcases hpk : fd0.packets with _ | ⟨first, rest⟩
  · have : setDirections fd0 = fd0 := by
      unfold setDirections
      rw [hpk]
    rw [this, hpk] at hh
    cases hh
  · have hred : setDirections fd0 =
        { fd0 with
          client_ip := some first.src_ip
          client_port := some first.src_port
          server_ip := some first.dst_ip
          server_port := some first.dst_port
          packets := (first :: rest).map (fun p =>
            { p with direction :=
                if p.src_ip = first.src_ip ∧ p.src_port = first.src_port then some "outgoing"
                else some "incoming" }) } := by
      unfold setDirections
      rw [hpk]
    rw [hred] at hh ⊢
    simp only [List.map_cons, List.head?_cons] at hh
    injection hh with hp0
    subst hp0
    refine ⟨rfl, rfl, rfl, rfl, ?_⟩
    intro p hp
    simp only [List.map_cons] at hp
    rcases List.mem_cons.mp hp with hfirst | hrest
    · subst hfirst
      simp
    · obtain ⟨q, _, rfl⟩ := List.mem_map.mp hrest
      dsimp only
      by_cases hc : q.src_ip = first.src_ip ∧ q.src_port = first.src_port
      · rw [if_pos hc, if_pos hc]
      · rw [if_neg hc, if_neg hc]

/-- `goodPacket` after direction assignment. -/
def wPacketOut : Packet := { goodPacket with direction := some "outgoing" }

/-- The canonical flow key of `goodPacket`'s conversation. -/
def wFlowId : String := "1.1.1.1:100->2.2.2.2:443"

/-- The flow assembled from the single packet `goodPacket`. -/
def wFlowData : FlowData :=
  { packets := [wPacketOut], server_ip := some "2.2.2.2", server_port := some "443",
    client_ip := some "1.1.1.1", client_port := some "100" }

theorem client_server_roles_witness :
    ((wFlowId, wFlowData) ∈ extract_quic_flows [goodPacket] ∧
      wFlowData.packets.head? = some wPacketOut) ∧
    (wFlowData.client_ip = some wPacketOut.src_ip ∧
      wFlowData.client_port = some wPacketOut.src_port ∧
      wFlowData.server_ip = some wPacketOut.dst_ip ∧
      wFlowData.server_port = some wPacketOut.dst_port ∧
      ∀ p ∈ wFlowData.packets,
        p.direction = some (if p.src_ip = wPacketOut.src_ip ∧ p.src_port = wPacketOut.src_port
          then "outgoing" else "incoming")) :=
  ⟨⟨by decide, by decide⟩,
    client_server_roles [goodPacket] wFlowId wFlowData (by decide) wPacketOut (by decide)⟩

/-! ### C3: the window slicer and the per-variant datasets -/

/-- Whether an output record carries the given flow id. -/
def isFlowId (fid : String) (r : List (String × Val)) : Bool :=
  match dlookup r "flow_id" with
  | some (.str s) => s == fid
  | _ => false

/-- The statistics engine never emits a `flow_id` key, so the metadata
field survives `dict.update`. -/
theorem stats_no_flow_id (ps : List Packet) :
    dlookup (calculate_comprehensive_statistics ps) "flow_id" = Option.none := by
  by_cases h : ps = []
  · subst h
    rfl
  · unfold calculate_comprehensive_statistics
    rw [if_neg h]
    simp [dlookup_ite, dlookup_dinsert, dlookup_ratioStage_ne, dlookup_zeroFill_ne,
      dlookup_classLoop_ne, dlookup_cis_ne, dlookup_css_ne]

theorem windowRecord_flowId (fileName fid : String) (w : Nat) (fd : FlowData) :
    dlookup (windowRecord fileName fid w fd) "flow_id" = some (.str fid) := by
  unfold windowRecord
  rw [dlookup_dupdate_of_none _ _ _ (stats_no_flow_id _)]
  unfold windowMeta
  simp [dlookup_dinsert]

theorem fullRecord_flowId (fileName fid : String) (fd : FlowData) :
    dlookup (fullRecord fileName fid fd) "flow_id" = some (.str fid) := by
  unfold fullRecord
  rw [dlookup_dupdate_of_none _ _ _ (stats_no_flow_id _)]
  unfold fullMeta
  simp [dlookup_dinsert]

theorem isFlowId_windowRecord (fid fileName fid' : String) (w : Nat) (fd : FlowData) :
    isFlowId fid (windowRecord fileName fid' w fd) = (fid' == fid) := by
  unfold isFlowId
  rw [windowRecord_flowId]

theorem isFlowId_fullRecord (fid fileName fid' : String) (fd : FlowData) :
    isFlowId fid (fullRecord fileName fid' fd) = (fid' == fid) := by
  unfold isFlowId
  rw [fullRecord_flowId]

theorem windowResults_cons_lt (fileName k0 : String) (fd0 : FlowData)
    (rest : List (String × FlowData)) (w : Nat) (hc : fd0.packets.length < w) :
    windowResults fileName ((k0, fd0) :: rest) w = windowResults fileName rest w := by
  unfold windowResults
  rw [List.filterMap_cons]
  simp [hc]

theorem windowResults_cons_ge (fileName k0 : String) (fd0 : FlowData)
    (rest : List (String × FlowData)) (w : Nat) (hc : ¬ fd0.packets.length < w) :
    windowResults fileName ((k0, fd0) :: rest) w =
      windowRecord fileName k0 w fd0 :: windowResults fileName rest w := by
  unfold windowResults
  rw [List.filterMap_cons]
  simp [hc]

theorem fullResults_cons (fileName k0 : String) (fd0 : FlowData)
    (rest : List (String × FlowData)) :
    fullResults fileName ((k0, fd0) :: rest) =
      fullRecord fileName k0 fd0 :: fullResults fileName rest := rfl

theorem windowResults_all_ne (fileName : String) (flows : List (String × FlowData))
    (w : Nat) (fid : String) (h : fid ∉ flows.map Prod.fst) :
    ∀ r ∈ windowResults fileName flows w, isFlowId fid r = false := by
  induction flows with
  | nil =>
    intro r hr
    simp [windowResults] at hr
  | cons kfd rest ih =>
    obtain ⟨k0, fd0⟩ := kfd
    simp only [List.map_cons, List.mem_cons, not_or] at h
    obtain ⟨hk0, hrest⟩ := h
    intro r hr
    by_cases hc : fd0.packets.length < w
    · rw [windowResults_cons_lt _ _ _ _ _ hc] at hr
      exact ih hrest r hr
    · rw [windowResults_cons_ge _ _ _ _ _ hc] at hr
      rcases List.mem_cons.mp hr with hEq | hr'
      · subst hEq
        rw [isFlowId_windowRecord]
        exact beq_eq_false_iff_ne.mpr (fun he => hk0 he.symm)
      · exact ih hrest r hr'

theorem fullResults_all_ne (fileName : String) (flows : List (String × FlowData))
    (fid : String) (h : fid ∉ flows.map Prod.fst) :
    ∀ r ∈ fullResults fileName flows, isFlowId fid r = false := by
  induction flows with
  | nil =>
    intro r hr
    simp [fullResults] at hr
  | cons kfd rest ih =>
    obtain ⟨k0, fd0⟩ := kfd
    simp only [List.map_cons, List.mem_cons, not_or] at h
    obtain ⟨hk0, hrest⟩ := h
    intro r hr
    rw [fullResults_cons] at hr
    rcases List.mem_cons.mp hr with hEq | hr'
    · subst hEq
      rw [isFlowId_fullRecord]
      exact beq_eq_false_iff_ne.mpr (fun he => hk0 he.symm)
    · exact ih hrest r hr'

/-- C3: Window slicer contract — for a flow map with distinct keys and any
window size `w > 0`: a flow with at least `w` packets contributes exactly
one record to the `w`-window dataset, whose features are those of its first
`w` packets; a flow with fewer than `w` packets contributes no record at
all; and every flow always contributes exactly one record to the full-flow
dataset (in particular whenever it has at least one packet), each window
variant being computed independently of the others. -/
theorem window_slicer_contract (fileName : String) (flows : List (String × FlowData))
    (w : Nat) (_hw : 0 < w) (hnodup : (flows.map Prod.fst).Nodup)
    (fid : String) (fd : FlowData) (hmem : (fid, fd) ∈ flows) :
    (w ≤ fd.packets.length →
      (windowResults fileName flows w).countP (isFlowId fid) = 1 ∧
      ∀ r ∈ windowResults fileName flows w, isFlowId fid r = true →
        r = windowRecord fileName fid w fd) ∧
    (fd.packets.length < w →
      ∀ r ∈ windowResults fileName flows w, isFlowId fid r = false) ∧
    ((fullResults fileName flows).countP (isFlowId fid) = 1 ∧
      ∀ r ∈ fullResults fileName flows, isFlowId fid r = true →
        r = fullRecord fileName fid fd) := by
  induction flows with
  | nil => cases hmem
  | cons kfd rest ih =>
    obtain ⟨k0, fd0⟩ := kfd
    simp only [List.map_cons, List.nodup_cons] at hnodup
    obtain ⟨hk0, hnd⟩ := hnodup
    rcases List.mem_cons.mp hmem with heq | hmem'
    · injection heq with h1 h2
      subst h1
      subst h2
      have hz : ∀ r ∈ windowResults fileName rest w, isFlowId fid r = false :=
        windowResults_all_ne fileName rest w fid hk0
      have hzf : ∀ r ∈ fullResults fileName rest, isFlowId fid r = false :=
        fullResults_all_ne fileName rest fid hk0
      refine ⟨?_, ?_, ?_⟩
      · intro hlen
        rw [windowResults_cons_ge _ _ _ _ _ (not_lt.mpr hlen)]
        constructor
        · rw [List.countP_cons, List.countP_eq_zero.mpr (fun r hr => by simp [hz r hr])]
          simp [isFlowId_windowRecord]
        · intro r hr htrue
          rcases List.mem_cons.mp hr with hEq | hr'
          · subst hEq
            rfl
          · exact absurd htrue (by simp [hz r hr'])
      · intro hlen
        rw [windowResults_cons_lt _ _ _ _ _ hlen]
        exact hz
      · rw [fullResults_cons]
        constructor
        · rw [List.countP_cons, List.countP_eq_zero.mpr (fun r hr => by simp [hzf r hr])]
          simp [isFlowId_fullRecord]
        · intro r hr htrue
          rcases List.mem_cons.mp hr with hEq | hr'
          · subst hEq
            rfl
          · exact absurd htrue (by simp [hzf r hr'])
    · have hfid : fid ∈ rest.map Prod.fst := List.mem_map_of_mem Prod.fst hmem'
      have hne : k0 ≠ fid := fun he => hk0 (he ▸ hfid)
      obtain ⟨ihw, ihx, ihf⟩ := ih hnd hmem'
      refine ⟨?_, ?_, ?_⟩
      · intro hlen
        obtain ⟨ihc, ihall⟩ := ihw hlen
        by_cases hc : fd0.packets.length < w
        · rw [windowResults_cons_lt _ _ _ _ _ hc]
          exact ⟨ihc, ihall⟩
        · rw [windowResults_cons_ge _ _ _ _ _ hc]
          constructor
          · rw [List.countP_cons, ihc]
            simp [isFlowId_windowRecord, beq_eq_false_iff_ne.mpr hne]
          · intro r hr htrue
            rcases List.mem_cons.mp hr with hEq | hr'
            · subst hEq
              rw [isFlowId_windowRecord] at htrue
              exact absurd htrue (by simp [beq_eq_false_iff_ne.mpr hne])
            · exact ihall r hr' htrue
      · intro hlen
        by_cases hc : fd0.packets.length < w
        · rw [windowResults_cons_lt _ _ _ _ _ hc]
          exact ihx hlen
        · rw [windowResults_cons_ge _ _ _ _ _ hc]
          intro r hr
          rcases List.mem_cons.mp hr with hEq | hr'
          · subst hEq
            rw [isFlowId_windowRecord]
            exact beq_eq_false_iff_ne.mpr hne
          · exact ihx hlen r hr'
      · obtain ⟨ihc, ihall⟩ := ihf
        rw [fullResults_cons]
        constructor
        · rw [List.countP_cons, ihc]
          simp [isFlowId_fullRecord, beq_eq_false_iff_ne.mpr hne]
        · intro r hr htrue
          rcases List.mem_cons.mp hr with hEq | hr'
          · subst hEq
            rw [isFlowId_fullRecord] at htrue
            exact absurd htrue (by simp [beq_eq_false_iff_ne.mpr hne])
          · exact ihall r hr' htrue

theorem window_slicer_contract_witness :
    (0 < 1 ∧ ([(wFlowId, wFlowData)].map Prod.fst).Nodup ∧
      (wFlowId, wFlowData) ∈ [(wFlowId, wFlowData)] ∧ 1 ≤ wFlowData.packets.length) ∧
    ((windowResults "cap.pcap" [(wFlowId, wFlowData)] 1).countP (isFlowId wFlowId) = 1 ∧
      ∀ r ∈ windowResults "cap.pcap" [(wFlowId, wFlowData)] 1, isFlowId wFlowId r = true →
        r = windowRecord "cap.pcap" wFlowId 1 wFlowData) :=
  ⟨⟨by decide, by simp, by simp, by decide⟩,
    (window_slicer_contract "cap.pcap" [(wFlowId, wFlowData)] 1 (by decide) (by simp)
      wFlowId wFlowData (by simp)).1 (by decide)⟩

end QuicCsv
